import Mathlib

/-!
Shallow embedding of the 32-bit ELF loader in `src/core/loader/elf.cpp`
(class `ElfReader`).

Modelling conventions:
* The raw image handed to `ElfReader(void* ptr)` is a `List Nat` of bytes.
  A read of byte `off` is `(img.getD off 0) % 256`: bytes are `u8`, and
  memory outside the image buffer is modelled as reading zero (the C++
  code performs no bounds checks; reads past the buffer have no defined
  value, and zero is the canonical choice that keeps the model total).
* The struct overlays (`Elf32_Ehdr`, `Elf32_Shdr`, `Elf32_Phdr`,
  `Elf32_Sym`) become little-endian field reads at the C struct offsets
  (headers are 52/40/32/16 bytes respectively on the ILP32 layouts used).
* A null `const char* / const u8*` result of `GetSectionDataPtr` is
  modelled as the offset `img.length` (one past the image), so that all
  subsequent reads through it yield zero, consistently with the
  outside-the-image convention above.
* `sh_offset` and `sh_name` pass through `int` parameters/locals in the
  C++ code; for any section that lies inside a real (sub-2GB) image these
  conversions are the identity, so the model keeps them as `Nat`.
  The `section < 0` check of `GetSectionDataPtr` is kept: its argument
  stays `Int` exactly as the C++ `int section` parameter.
* Effects are returned as data: `Memory` writes done by `LoadInto` become
  a list of `MemWrite` records, and `Symbols::Add` calls become a list of
  `SymbolReport` records.
-/

set_option maxRecDepth 40000

namespace Elf

/-- ELF file type constant `ET_EXEC` (elf.cpp line 23). -/
def ET_EXEC : Nat := 2

/-- Section type constant `SHT_NULL` (elf.cpp line 66). -/
def SHT_NULL : Nat := 0

/-- Section type constant `SHT_NOBITS` (elf.cpp line 74). -/
def SHT_NOBITS : Nat := 8

/-- Segment type constant `PT_LOAD` (elf.cpp line 94). -/
def PT_LOAD : Nat := 1

/-- Read one byte of the raw image; outside the buffer reads give 0. -/
def read8 (img : List Nat) (off : Nat) : Nat :=
  (img.getD off 0) % 256

/-- Little-endian 16-bit read (`Elf32_Half`). -/
def read16 (img : List Nat) (off : Nat) : Nat :=
  read8 img off + 256 * read8 img (off + 1)

/-- Little-endian 32-bit read (`Elf32_Word` / `Elf32_Addr` / `Elf32_Off`). -/
def read32 (img : List Nat) (off : Nat) : Nat :=
  read8 img off + 256 * read8 img (off + 1) +
    65536 * read8 img (off + 2) + 16777216 * read8 img (off + 3)

/-- The C++ conversion from `u32` to `int` (two's complement). -/
def u32ToInt (x : Nat) : Int :=
  if x < 2147483648 then (x : Int) else (x : Int) - 4294967296

/-- `header->e_type` (offset 16 in `Elf32_Ehdr`). -/
def e_type (img : List Nat) : Nat := read16 img 16

/-- `header->e_entry` (offset 24 in `Elf32_Ehdr`). -/
def e_entry (img : List Nat) : Nat := read32 img 24

/-- `header->e_phoff` (offset 28 in `Elf32_Ehdr`). -/
def e_phoff (img : List Nat) : Nat := read32 img 28

/-- `header->e_shoff` (offset 32 in `Elf32_Ehdr`). -/
def e_shoff (img : List Nat) : Nat := read32 img 32

/-- `header->e_phnum` (offset 44 in `Elf32_Ehdr`). -/
def e_phnum (img : List Nat) : Nat := read16 img 44

/-- `header->e_shnum` (offset 48 in `Elf32_Ehdr`). -/
def e_shnum (img : List Nat) : Nat := read16 img 48

/-- `header->e_shstrndx` (offset 50 in `Elf32_Ehdr`). -/
def e_shstrndx (img : List Nat) : Nat := read16 img 50

/-- Offset of `sections[i]`: `base + e_shoff + 40*i` (`sizeof(Elf32_Shdr) = 40`). -/
def shdrOff (img : List Nat) (i : Nat) : Nat := e_shoff img + 40 * i

/-- `sections[i].sh_name` (offset 0 in `Elf32_Shdr`). -/
def sh_name (img : List Nat) (i : Nat) : Nat := read32 img (shdrOff img i)

/-- `sections[i].sh_type` (offset 4 in `Elf32_Shdr`). -/
def sh_type (img : List Nat) (i : Nat) : Nat := read32 img (shdrOff img i + 4)

/-- `sections[i].sh_offset` (offset 16 in `Elf32_Shdr`). -/
def sh_offset (img : List Nat) (i : Nat) : Nat := read32 img (shdrOff img i + 16)

/-- `sections[i].sh_size` (offset 20 in `Elf32_Shdr`). -/
def sh_size (img : List Nat) (i : Nat) : Nat := read32 img (shdrOff img i + 20)

/-- `sections[i].sh_link` (offset 24 in `Elf32_Shdr`). -/
def sh_link (img : List Nat) (i : Nat) : Nat := read32 img (shdrOff img i + 24)

/-- Offset of `segments[i]`: `base + e_phoff + 32*i` (`sizeof(Elf32_Phdr) = 32`). -/
def phdrOff (img : List Nat) (i : Nat) : Nat := e_phoff img + 32 * i

/-- `segments[i].p_type` (offset 0 in `Elf32_Phdr`). -/
def p_type (img : List Nat) (i : Nat) : Nat := read32 img (phdrOff img i)

/-- `segments[i].p_offset` (offset 4 in `Elf32_Phdr`). -/
def p_offset (img : List Nat) (i : Nat) : Nat := read32 img (phdrOff img i + 4)

/-- `segments[i].p_vaddr` (offset 8 in `Elf32_Phdr`). -/
def p_vaddr (img : List Nat) (i : Nat) : Nat := read32 img (phdrOff img i + 8)

/-- `segments[i].p_filesz` (offset 16 in `Elf32_Phdr`). -/
def p_filesz (img : List Nat) (i : Nat) : Nat := read32 img (phdrOff img i + 16)

/-- Read a null-terminated C string starting at `off`: the byte list up to
(excluding) the first zero byte.  Reads past the image yield 0, so the
fuel `img.length + 1` always suffices to reach a terminator. -/
def readCStringAux (img : List Nat) : Nat → Nat → List Nat
  | _, 0 => []
  | off, fuel + 1 =>
    let b := read8 img off
    if b = 0 then [] else b :: readCStringAux img (off + 1) fuel

/-- Read the null-terminated C string at offset `off` of the image. -/
def readCString (img : List Nat) (off : Nat) : List Nat :=
  readCStringAux img off (img.length + 1)

/-- `ElfReader::GetSectionDataPtr(int section)` (elf.cpp lines 207-214):
null for an out-of-range index or a `SHT_NOBITS` section, otherwise the
pointer `GetPtr(sections[section].sh_offset)`, modelled as the offset. -/
def getSectionDataPtr (img : List Nat) (sec : Int) : Option Nat :=
  if sec < 0 ∨ (e_shnum img : Int) ≤ sec then none
  else if sh_type img sec.toNat ≠ SHT_NOBITS then some (sh_offset img sec.toNat)
  else none

/-- `ElfReader::GetSectionName(int section)` (elf.cpp lines 243-254):
null for a `SHT_NULL` section or a null string-table pointer, otherwise
the C string at `stringTablePtr + sh_name`. -/
def getSectionName (img : List Nat) (i : Nat) : Option (List Nat) :=
  if sh_type img i = SHT_NULL then none
  else
    match getSectionDataPtr img (e_shstrndx img : Int) with
    | some ptr => some (readCString img (ptr + sh_name img i))
    | none => none

/-- Loop of `ElfReader::GetSectionByName` (elf.cpp lines 291-296): scan
index `i` upward with `fuel` iterations left; a section matches when its
name is non-null and `strcmp` equal to `name`. -/
def getSectionByNameAux (img name : List Nat) : Nat → Nat → Int
  | _, 0 => -1
  | i, fuel + 1 =>
    match getSectionName img i with
    | some secname =>
      if secname = name then (i : Int) else getSectionByNameAux img name (i + 1) fuel
    | none => getSectionByNameAux img name (i + 1) fuel

/-- `ElfReader::GetSectionByName(name, firstSection)` (elf.cpp lines
290-298): first matching index from `firstSection` up to `e_shnum`,
`-1` when none matches. -/
def getSectionByName (img name : List Nat) (firstSection : Nat) : Int :=
  getSectionByNameAux img name firstSection (e_shnum img - firstSection)

/-- One `Memory` write performed by `LoadInto`: the `memcpy` to
`Memory::GetPointer(segment_addr[i])` of `p_filesz` bytes. -/
structure MemWrite where
  addr : Nat
  data : List Nat
deriving DecidableEq, Repr

/-- One `Symbols::Add(st_value, name, size, type)` call made by
`LoadSymbols`. -/
structure SymbolReport where
  address : Nat
  name : List Nat
  size : Nat
  type : Nat
deriving DecidableEq, Repr

/-- The mutable members of `ElfReader` that the loader updates:
`entryPoint` (a `u32`) and `relocate`.  The `relocate` member is left
uninitialised by the constructor; the model initialises it to `false`,
and no modelled query reads it before `LoadInto` assigns it. -/
structure ElfReaderState where
  entryPoint : Nat
  relocate : Bool
deriving DecidableEq, Repr

/-- `ElfReader::GetEntryPoint()` (elf.cpp line 198). -/
def GetEntryPoint (st : ElfReaderState) : Nat := st.entryPoint

/-- `ElfReader::GetNumSegments()` (elf.cpp line 203). -/
def GetNumSegments (img : List Nat) : Nat := e_phnum img

/-- `ElfReader::GetNumSections()` (elf.cpp line 204). -/
def GetNumSections (img : List Nat) : Nat := e_shnum img

/-- The bytes `memcpy` reads from `GetSegmentPtr(i) = base + p_offset`:
`len` bytes starting at `off`. -/
def readBytes (img : List Nat) (off len : Nat) : List Nat :=
  (List.range len).map (fun k => read8 img (off + k))

/-- The write performed for a `PT_LOAD` entry `i` (elf.cpp lines 280-281):
`segment_addr[i] = base_addr + p_vaddr` (u32 arithmetic) and a copy of
`p_filesz` bytes from file offset `p_offset`. -/
def segmentWrite (img : List Nat) (base_addr i : Nat) : MemWrite :=
  ⟨(base_addr + p_vaddr img i) % 2 ^ 32,
   readBytes img (p_offset img i) (p_filesz img i)⟩

/-- The segment loop of `LoadInto` (elf.cpp lines 274-285), from index `i`
with `fuel` iterations left, collecting the writes in order. -/
def loadIntoLoop (img : List Nat) (base_addr : Nat) : Nat → Nat → List MemWrite
  | _, 0 => []
  | i, fuel + 1 =>
    if p_type img i = PT_LOAD then
      segmentWrite img base_addr i :: loadIntoLoop img base_addr (i + 1) fuel
    else loadIntoLoop img base_addr (i + 1) fuel

/-- `ElfReader::LoadInto(u32 vaddr)` (elf.cpp lines 256-288).  Returns the
updated reader state, the list of memory writes in segment order, and the
function's `bool` result (the code ends with `return true`). -/
def loadInto (img : List Nat) (st : ElfReaderState) (vaddr : Nat) :
    ElfReaderState × List MemWrite × Bool :=
  let relocate : Bool := e_type img != ET_EXEC
  let ep := if relocate then (st.entryPoint + vaddr) % 2 ^ 32 else st.entryPoint
  let base_addr := if relocate then vaddr else 0
  (⟨ep, relocate⟩, loadIntoLoop img base_addr 0 (e_phnum img), true)

/-- The segment loop of `LoadInto` with the bounds side condition of the
store `segment_addr[i]` made explicit: `segment_addr` is `u32 [32]`
(elf.cpp line 271), so the loop fails (`none`) exactly when it stores at
an index `i ≥ 32`. -/
def loadIntoLoopChecked (img : List Nat) (base_addr : Nat) :
    Nat → Nat → Option (List MemWrite)
  | _, 0 => some []
  | i, fuel + 1 =>
    if p_type img i = PT_LOAD then
      if i < 32 then
        (loadIntoLoopChecked img base_addr (i + 1) fuel).map
          (fun ws => segmentWrite img base_addr i :: ws)
      else none
    else loadIntoLoopChecked img base_addr (i + 1) fuel

/-- `LoadInto` with the `segment_addr[i]` stores bounds-checked: `none`
exactly when some store would fall outside the 32-entry local array. -/
def loadIntoChecked (img : List Nat) (st : ElfReaderState) (vaddr : Nat) :
    Option (ElfReaderState × List MemWrite × Bool) :=
  let relocate : Bool := e_type img != ET_EXEC
  let ep := if relocate then (st.entryPoint + vaddr) % 2 ^ 32 else st.entryPoint
  let base_addr := if relocate then vaddr else 0
  (loadIntoLoopChecked img base_addr 0 (e_phnum img)).map
    (fun ws => (⟨ep, relocate⟩, ws, true))

/-- The byte string `".symtab"` passed to `GetSectionByName` by
`LoadSymbols` (elf.cpp line 302). -/
def symtabName : List Nat := [46, 115, 121, 109, 116, 97, 98]

/-- Offset of `symtab[sym]` relative to the symbol-table data offset `so`
(`sizeof(Elf32_Sym) = 16`). -/
def symEntryOff (so sym : Nat) : Nat := so + 16 * sym

/-- `stringBase = GetSectionDataPtr(sections[sec].sh_link)` of
`LoadSymbols` (elf.cpp lines 304-305); the `u32` field passes through an
`int` local.  A null pointer is modelled as `img.length`. -/
def symtabStringBase (img : List Nat) (s : Nat) : Nat :=
  (getSectionDataPtr img (u32ToInt (sh_link img s))).getD img.length

/-- `symtab = GetSectionDataPtr(sec)` of `LoadSymbols` (elf.cpp line
308).  A null pointer is modelled as `img.length`. -/
def symtabData (img : List Nat) (s : Nat) : Nat :=
  (getSectionDataPtr img (s : Int)).getD img.length

/-- The report built for symbol `sym` (elf.cpp lines 315-319):
`address = st_value`, `name` the C string at `stringBase + st_name`,
`size = st_size`, `type = st_info & 0xF`. -/
def symbolReportAt (img : List Nat) (sb so sym : Nat) : SymbolReport :=
  ⟨read32 img (symEntryOff so sym + 4),
   readCString img (sb + read32 img (symEntryOff so sym)),
   read32 img (symEntryOff so sym + 8),
   Nat.land (read8 img (symEntryOff so sym + 12)) 15⟩

/-- The per-entry behaviour of the symbol loop: `none` when
`st_size == 0` (the entry is skipped), otherwise the report added. -/
def symEntryFilter (img : List Nat) (sb so sym : Nat) : Option SymbolReport :=
  if read32 img (symEntryOff so sym + 8) = 0 then none
  else some (symbolReportAt img sb so sym)

/-- The symbol loop of `LoadSymbols` (elf.cpp lines 310-322), from entry
`sym` with `fuel` iterations left; returns the `hasSymbols` flag and the
reports in order. -/
def loadSymbolsLoop (img : List Nat) (sb so : Nat) :
    Nat → Nat → Bool × List SymbolReport
  | _, 0 => (false, [])
  | sym, fuel + 1 =>
    if read32 img (symEntryOff so sym + 8) = 0 then
      loadSymbolsLoop img sb so (sym + 1) fuel
    else
      (true, symbolReportAt img sb so sym ::
        (loadSymbolsLoop img sb so (sym + 1) fuel).2)

/-- `ElfReader::LoadSymbols()` (elf.cpp lines 300-326).  Returns the
`hasSymbols` result and the list of `Symbols::Add` calls in order. -/
def loadSymbols (img : List Nat) : Bool × List SymbolReport :=
  let sec := getSectionByName img symtabName 0
  if sec = -1 then (false, [])
  else
    let s := sec.toNat
    let numSymbols := sh_size img s / 16
    loadSymbolsLoop img (symtabStringBase img s) (symtabData img s) 0 numSymbols

/-- `ElfReader::ElfReader(void* ptr)` (elf.cpp lines 230-241): sets
`entryPoint = header->e_entry` and calls `LoadSymbols()`.  Returns the
constructed state together with the `LoadSymbols` outcome. -/
def mkElfReader (img : List Nat) : ElfReaderState × (Bool × List SymbolReport) :=
  (⟨e_entry img, false⟩, loadSymbols img)

/-- `n` successive calls of `LoadInto` with the same base `vaddr`,
starting from state `st`, keeping only the state. -/
def loadIntoN (img : List Nat) (st : ElfReaderState) (vaddr : Nat) : Nat → ElfReaderState
  | 0 => st
  | n + 1 => (loadInto img (loadIntoN img st vaddr n) vaddr).1

/-- Modelled from the spec (§4.3): the expected list of symbol reports for
a symbol-table section `s` — one report per entry with nonzero size, in
table order, with the fields of §4.3. -/
def specSymbolReports (img : List Nat) (s : Nat) : List SymbolReport :=
  (List.range (sh_size img s / 16)).filterMap
    (symEntryFilter img (symtabStringBase img s) (symtabData img s))

/-- A 28-byte image whose header declares `e_type = ET_EXEC` and
`e_entry = 0x1234`; all table offsets and counts read as zero. -/
def imgExec : List Nat :=
  [0, 0, 0, 0, 0, 0, 0, 0, 0, 0, 0, 0, 0, 0, 0, 0,
   2, 0,
   0, 0, 0, 0, 0, 0,
   52, 18, 0, 0]

/-- A 232-byte image with `e_type = 0` (not `ET_EXEC`), `e_entry = 256`,
`e_shoff = 64`, `e_shnum = 3`, `e_shstrndx = 2`; section 0 is `SHT_NULL`,
section 1 is a `.symtab` of two 16-byte entries at offset 200 with
`sh_link = 2`, and section 2 is the string table at offset 184.  The
first symbol entry has name `"foo"`, value 4096, size 4, info 0x12; the
second has size 0. -/
def imgSym : List Nat :=
  [0, 0, 0, 0, 0, 0, 0, 0, 0, 0, 0, 0, 0, 0, 0, 0,
   0, 0,
   0, 0, 0, 0, 0, 0,
   0, 1, 0, 0,
   0, 0, 0, 0,
   64, 0, 0, 0,
   0, 0, 0, 0,
   0, 0,
   0, 0,
   0, 0,
   0, 0,
   3, 0,
   2, 0,
   0, 0, 0, 0, 0, 0, 0, 0, 0, 0, 0, 0,
   0, 0, 0, 0, 0, 0, 0, 0, 0, 0, 0, 0, 0, 0, 0, 0,
   0, 0, 0, 0, 0, 0, 0, 0, 0, 0, 0, 0, 0, 0, 0, 0,
   0, 0, 0, 0, 0, 0, 0, 0,
   1, 0, 0, 0,
   2, 0, 0, 0,
   0, 0, 0, 0,
   0, 0, 0, 0,
   200, 0, 0, 0,
   32, 0, 0, 0,
   2, 0, 0, 0,
   0, 0, 0, 0,
   0, 0, 0, 0,
   16, 0, 0, 0,
   0, 0, 0, 0,
   3, 0, 0, 0,
   0, 0, 0, 0,
   0, 0, 0, 0,
   184, 0, 0, 0,
   16, 0, 0, 0,
   0, 0, 0, 0,
   0, 0, 0, 0,
   0, 0, 0, 0,
   0, 0, 0, 0,
   0, 46, 115, 121, 109, 116, 97, 98, 0, 102, 111, 111, 0, 0, 0, 0,
   9, 0, 0, 0,
   0, 16, 0, 0,
   4, 0, 0, 0,
   18, 0, 0, 0,
   0, 0, 0, 0, 0, 0, 0, 0, 0, 0, 0, 0, 0, 0, 0, 0]

theorem read8_lt (img : List Nat) (off : Nat) : read8 img off < 256 :=
  Nat.mod_lt _ (by omega)

theorem read32_lt (img : List Nat) (off : Nat) : read32 img off < 2 ^ 32 := by
  have h0 := read8_lt img off
  have h1 := read8_lt img (off + 1)
  have h2 := read8_lt img (off + 2)
  have h3 := read8_lt img (off + 3)
  have hp : (2 : Nat) ^ 32 = 4294967296 := by norm_num
  unfold read32
  omega

theorem loadIntoLoop_eq (img : List Nat) (b : Nat) :
    ∀ fuel i,
      loadIntoLoop img b i fuel =
        ((List.range' i fuel).filter (fun j => decide (p_type img j = PT_LOAD))).map
          (segmentWrite img b) := by
  intro fuel
  induction fuel with
  | zero => intro i; simp [loadIntoLoop]
  | succ n ih =>
    intro i
    rw [List.range'_succ]
    by_cases h : p_type img i = PT_LOAD <;>
      simp [loadIntoLoop, h, ih (i + 1)]

theorem loadIntoLoopChecked_all_lt (img : List Nat) (b : Nat) :
    ∀ fuel i, (∀ j, i ≤ j → j < i + fuel → p_type img j = PT_LOAD → j < 32) →
      loadIntoLoopChecked img b i fuel = some (loadIntoLoop img b i fuel) := by
  intro fuel
  induction fuel with
  | zero => intro i _; rfl
  | succ n ih =>
    intro i h
    have hrec := ih (i + 1) (fun j h1 h2 hL => h j (by omega) (by omega) hL)
    by_cases hL : p_type img i = PT_LOAD
    · have h32 : i < 32 := h i (le_refl i) (by omega) hL
      simp [loadIntoLoopChecked, loadIntoLoop, hL, h32, hrec]
    · simp [loadIntoLoopChecked, loadIntoLoop, hL, hrec]

theorem loadIntoLoopChecked_oob (img : List Nat) (b : Nat) :
    ∀ fuel i k, i ≤ k → k < i + fuel → p_type img k = PT_LOAD → 32 ≤ k →
      loadIntoLoopChecked img b i fuel = none := by
  intro fuel
  induction fuel with
  | zero => intro i k h1 h2 _ _; omega
  | succ n ih =>
    intro i k h1 h2 hL h32
    by_cases hi : p_type img i = PT_LOAD
    · by_cases hib : i < 32
      · have hk : i + 1 ≤ k := by omega
        simp [loadIntoLoopChecked, hi, hib, ih (i + 1) k hk (by omega) hL h32]
      · simp [loadIntoLoopChecked, hi, hib]
    · have hk : i + 1 ≤ k := by
        rcases Nat.eq_or_lt_of_le h1 with he | hlt
        · exact absurd (he ▸ hL) hi
        · omega
      simp [loadIntoLoopChecked, hi, ih (i + 1) k hk (by omega) hL h32]

theorem loadSymbolsLoop_eq (img : List Nat) (sb so : Nat) :
    ∀ fuel s,
      loadSymbolsLoop img sb so s fuel =
        (!((List.range' s fuel).filterMap (symEntryFilter img sb so)).isEmpty,
         (List.range' s fuel).filterMap (symEntryFilter img sb so)) := by
  intro fuel
  induction fuel with
  | zero => intro s; simp [loadSymbolsLoop]
  | succ n ih =>
    intro s
    rw [List.range'_succ]
    by_cases h : read32 img (symEntryOff so s + 8) = 0 <;>
      simp [loadSymbolsLoop, symEntryFilter, h, ih (s + 1)]

theorem getSectionByNameAux_notfound (img name : List Nat) :
    ∀ fuel i, (∀ j, i ≤ j → j < i + fuel → getSectionName img j ≠ some name) →
      getSectionByNameAux img name i fuel = -1 := by
  intro fuel
  induction fuel with
  | zero => intro i _; rfl
  | succ n ih =>
    intro i h
    have hrec := ih (i + 1) (fun j h1 h2 => h j (by omega) (by omega))
    unfold getSectionByNameAux
    cases hs : getSectionName img i with
    | none => exact hrec
    | some secname =>
      have hne : ¬secname = name := fun e => h i (le_refl i) (by omega) (by rw [hs, e])
      simp [hne, hrec]

theorem getSectionByNameAux_found (img name : List Nat) :
    ∀ fuel i k, i ≤ k → k < i + fuel → getSectionName img k = some name →
      (∀ j, i ≤ j → j < k → getSectionName img j ≠ some name) →
      getSectionByNameAux img name i fuel = (k : Int) := by
  intro fuel
  induction fuel with
  | zero => intro i k h1 h2 _ _; omega
  | succ n ih =>
    intro i k h1 h2 hk hmin
    unfold getSectionByNameAux
    by_cases he : i = k
    · subst he
      rw [hk]
      simp
    · have hik : i < k := by omega
      have hrec := ih (i + 1) k (by omega) (by omega) hk
        (fun j ha hb => hmin j (by omega) hb)
      have hne := hmin i (le_refl i) hik
      cases hs : getSectionName img i with
      | none => exact hrec
      | some secname =>
        have : ¬secname = name := fun e => hne (by rw [hs, e])
        simp [this, hrec]

theorem loadSymbols_found_eq (img : List Nat) (s : Nat)
    (hs : getSectionByName img symtabName 0 = (s : Int)) :
    loadSymbols img = (!(specSymbolReports img s).isEmpty, specSymbolReports img s) := by
  have hne : ¬(getSectionByName img symtabName 0 = -1) := by rw [hs]; omega
  have ht : (getSectionByName img symtabName 0).toNat = s := by rw [hs]; omega
  rw [loadSymbols, if_neg hne, ht, specSymbolReports, List.range_eq_range',
    loadSymbolsLoop_eq]

theorem loadSymbols_notfound_eq (img : List Nat)
    (h : ∀ i, i < e_shnum img → getSectionName img i ≠ some symtabName) :
    loadSymbols img = (false, []) := by
  have hn : getSectionByName img symtabName 0 = -1 :=
    getSectionByNameAux_notfound img symtabName (e_shnum img - 0) 0
      (fun j _ h2 => h j (by omega))
  rw [loadSymbols, if_pos hn]

theorem loadIntoN_entry (img : List Nat) (vaddr : Nat) (hT : e_type img ≠ ET_EXEC) :
    ∀ n, (loadIntoN img (mkElfReader img).1 vaddr n).entryPoint =
      (e_entry img + n * vaddr) % 2 ^ 32 := by
  intro n
  induction n with
  | zero =>
    show e_entry img = (e_entry img + 0 * vaddr) % 2 ^ 32
    rw [Nat.zero_mul, Nat.add_zero]
    exact (Nat.mod_eq_of_lt (read32_lt img 24)).symm
  | succ n ih =>
    have hb : (e_type img != ET_EXEC) = true := bne_iff_ne.mpr hT
    simp only [loadIntoN, loadInto, hb, if_true]
    rw [ih, Nat.mod_add_mod]
    congr 1
    ring

/-- Claim C1: `LoadInto` sets the `relocate` flag to true exactly when the
header type is not `ET_EXEC`; for an `ET_EXEC` image the resulting entry
point is the raw `e_entry` value unchanged, and otherwise it is
`e_entry + baseVirtualAddress` in `u32` arithmetic. -/
theorem loadInto_relocate_entry_spec (img : List Nat) (vaddr : Nat) :
    ((loadInto img (mkElfReader img).1 vaddr).1.relocate = true ↔ e_type img ≠ ET_EXEC) ∧
    (e_type img = ET_EXEC →
      (loadInto img (mkElfReader img).1 vaddr).1.entryPoint = e_entry img) ∧
    (e_type img ≠ ET_EXEC →
      (loadInto img (mkElfReader img).1 vaddr).1.entryPoint =
        (e_entry img + vaddr) % 2 ^ 32) := by
  by_cases h : e_type img = ET_EXEC <;>
    simp [loadInto, mkElfReader, h]

/-- Claim C1 witness: for the concrete `ET_EXEC` image, the entry point
after `LoadInto` with base 7 is the raw header entry `0x1234`. -/
theorem loadInto_relocate_entry_witness :
    (loadInto imgExec (mkElfReader imgExec).1 7).1.entryPoint = 4660 := by
  rw [(loadInto_relocate_entry_spec imgExec 7).2.1 (by decide)]
  decide

/-- Claim C2: the writes performed by `LoadInto` are exactly one write per
`PT_LOAD` program-header entry, in header-array order, each copying
`p_filesz` bytes from file offset `p_offset` to target address
`(relocate ? vaddr : 0) + p_vaddr`. -/
theorem loadInto_writes_spec (img : List Nat) (st : ElfReaderState) (vaddr : Nat) :
    (loadInto img st vaddr).2.1 =
      ((List.range (e_phnum img)).filter (fun i => decide (p_type img i = PT_LOAD))).map
        (segmentWrite img (if e_type img != ET_EXEC then vaddr else 0)) := by
  simp only [loadInto, List.range_eq_range']
  rw [loadIntoLoop_eq]

/-- Claim C3: `LoadSymbols` returns `false` and reports nothing when no
section is named `.symtab`; when the scan finds one at index `s`, it
reports exactly the nonzero-size symbol entries in table order (address
`st_value`, name at `stringBase + st_name`, size `st_size`, type
`st_info & 0xF`) and returns true iff at least one was reported. -/
theorem loadSymbols_spec (img : List Nat) :
    ((∀ i, i < e_shnum img → getSectionName img i ≠ some symtabName) →
      loadSymbols img = (false, [])) ∧
    (∀ s : Nat, getSectionByName img symtabName 0 = (s : Int) →
      loadSymbols img =
        (!(specSymbolReports img s).isEmpty, specSymbolReports img s)) :=
  ⟨loadSymbols_notfound_eq img, loadSymbols_found_eq img⟩

/-- Claim C3 witness: on the concrete image with a two-entry `.symtab`,
`LoadSymbols` returns true and reports exactly the one nonzero-size
symbol `"foo"` at 4096 with size 4 and type 2. -/
theorem loadSymbols_witness :
    loadSymbols imgSym = (true, [⟨4096, [102, 111, 111], 4, 2⟩]) := by
  rw [(loadSymbols_spec imgSym).2 1 (by decide)]
  decide

/-- Claim C4: `GetSectionByName` scans linearly from `startIndex` and
returns the first index whose resolved name equals `name`, `-1` when no
index from `startIndex` on matches; a `SHT_NULL` section resolves to no
name, so it never matches. -/
theorem getSectionByName_spec (img name : List Nat) (start : Nat) :
    ((∀ j, start ≤ j → j < e_shnum img → getSectionName img j ≠ some name) →
      getSectionByName img name start = -1) ∧
    (∀ k, start ≤ k → k < e_shnum img → getSectionName img k = some name →
      (∀ j, start ≤ j → j < k → getSectionName img j ≠ some name) →
      getSectionByName img name start = (k : Int)) ∧
    (∀ j, sh_type img j = SHT_NULL → getSectionName img j = none) :=
  ⟨fun h => getSectionByNameAux_notfound img name _ start
      (fun j h1 h2 => h j h1 (by omega)),
   fun k h1 h2 hk hmin => getSectionByNameAux_found img name _ start k h1 (by omega)
      hk hmin,
   fun j hj => by simp [getSectionName, hj]⟩

/-- Claim C4 witness: on the concrete image the scan from 0 skips the
`SHT_NULL` section 0 and finds `.symtab` at index 1. -/
theorem getSectionByName_witness : getSectionByName imgSym symtabName 0 = (1 : Int) :=
  (getSectionByName_spec imgSym symtabName 0).2.1 1 (by omega) (by decide) (by decide)
    (fun j _ hj => by
      have hj0 : j = 0 := by omega
      subst hj0
      decide)

/-- Claim C5: `GetSectionDataPtr` returns null for an out-of-range index
(negative or at least `e_shnum`) and for a `SHT_NOBITS` section whatever
its size and offset; otherwise it returns the data at the section's
`sh_offset`. -/
theorem getSectionDataPtr_spec (img : List Nat) (idx : Int) :
    ((idx < 0 ∨ (e_shnum img : Int) ≤ idx) → getSectionDataPtr img idx = none) ∧
    (0 ≤ idx → idx < (e_shnum img : Int) → sh_type img idx.toNat = SHT_NOBITS →
      getSectionDataPtr img idx = none) ∧
    (0 ≤ idx → idx < (e_shnum img : Int) → sh_type img idx.toNat ≠ SHT_NOBITS →
      getSectionDataPtr img idx = some (sh_offset img idx.toNat)) := by
  refine ⟨fun h => by rw [getSectionDataPtr, if_pos h],
    fun h1 h2 h3 => ?_, fun h1 h2 h3 => ?_⟩
  · rw [getSectionDataPtr, if_neg (by omega), if_neg (by simp [h3])]
  · rw [getSectionDataPtr, if_neg (by omega), if_pos h3]

/-- Claim C5 witness: a negative index yields null on the concrete
image. -/
theorem getSectionDataPtr_witness : getSectionDataPtr imgSym (-1) = none :=
  (getSectionDataPtr_spec imgSym (-1)).1 (Or.inl (by decide))

/-- Claim C6: `LoadInto` is total and always returns `true`, and it runs
the loop over all `e_phnum` entries producing one write per `PT_LOAD`
entry, for every input image, state and base address — there is no error
outcome. -/
theorem loadInto_total_spec (img : List Nat) (st : ElfReaderState) (vaddr : Nat) :
    (loadInto img st vaddr).2.2 = true ∧
    (loadInto img st vaddr).2.1.length =
      ((List.range (e_phnum img)).filter
        (fun i => decide (p_type img i = PT_LOAD))).length := by
  refine ⟨rfl, ?_⟩
  simp only [loadInto, List.range_eq_range']
  rw [loadIntoLoop_eq, List.length_map]

/-- Claim C7: construction (`ElfReader::ElfReader`) itself performs the
symbol extraction: the reports produced by `mkElfReader` are those of
`LoadSymbols`, and when the scan finds `.symtab` at `s`, every
nonzero-size entry's report is already among the construction's
reports. -/
theorem construction_symbols_spec (img : List Nat) :
    (mkElfReader img).2 = loadSymbols img ∧
    (∀ s : Nat, getSectionByName img symtabName 0 = (s : Int) →
      ∀ sym, sym < sh_size img s / 16 →
        read32 img (symEntryOff (symtabData img s) sym + 8) ≠ 0 →
        symbolReportAt img (symtabStringBase img s) (symtabData img s) sym ∈
          (mkElfReader img).2.2) := by
  refine ⟨rfl, fun s hs sym hlt hnz => ?_⟩
  have h2 : (mkElfReader img).2.2 = specSymbolReports img s := by
    rw [show (mkElfReader img).2 = loadSymbols img from rfl,
      loadSymbols_found_eq img s hs]
  rw [h2]
  exact List.mem_filterMap.mpr
    ⟨sym, List.mem_range.mpr hlt, by simp [symEntryFilter, hnz]⟩

/-- Claim C7 witness: on the concrete image, the report of the first
symbol entry is among the reports made at construction time. -/
theorem construction_symbols_witness :
    symbolReportAt imgSym (symtabStringBase imgSym 1) (symtabData imgSym 1) 0 ∈
      (mkElfReader imgSym).2.2 :=
  (construction_symbols_spec imgSym).2 1 (by decide) 0 (by decide) (by decide)

/-- Claim C8: construction is deterministic — two readers built from equal
raw images agree on section count, segment count, every resolved section
name, and the whole construction result (state and extracted symbols). -/
theorem construction_deterministic (img1 img2 : List Nat) (h : img1 = img2) :
    GetNumSections img1 = GetNumSections img2 ∧
    GetNumSegments img1 = GetNumSegments img2 ∧
    (∀ i, getSectionName img1 i = getSectionName img2 i) ∧
    mkElfReader img1 = mkElfReader img2 := by
  subst h
  exact ⟨rfl, rfl, fun i => rfl, rfl⟩

/-- Claim C8 witness: two constructions from the concrete image coincide. -/
theorem construction_deterministic_witness :
    mkElfReader imgSym = mkElfReader imgSym :=
  (construction_deterministic imgSym imgSym rfl).2.2.2

/-- Claim C9: the `segment_addr` local array has 32 entries indexed by the
program-header index, so with the store bounds made explicit the load
succeeds (and agrees with the unchecked load) whenever `e_phnum ≤ 32`,
and fails whenever some `PT_LOAD` entry sits at an index at least 32. -/
theorem segmentAddr_bounds_spec (img : List Nat) (st : ElfReaderState) (vaddr : Nat) :
    (e_phnum img ≤ 32 →
      loadIntoChecked img st vaddr = some (loadInto img st vaddr)) ∧
    (∀ i, 32 ≤ i → i < e_phnum img → p_type img i = PT_LOAD →
      loadIntoChecked img st vaddr = none) := by
  constructor
  · intro h
    rw [loadIntoChecked, loadInto,
      loadIntoLoopChecked_all_lt img _ (e_phnum img) 0 (fun j _ h2 _ => by omega)]
    rfl
  · intro i h32 hlt hL
    rw [loadIntoChecked,
      loadIntoLoopChecked_oob img _ (e_phnum img) 0 i (by omega) (by omega) hL h32]
    rfl

/-- Claim C9 witness: the concrete image has no program headers, so the
bounds-checked load succeeds and agrees with the unchecked one. -/
theorem segmentAddr_bounds_witness :
    loadIntoChecked imgSym (mkElfReader imgSym).1 0 =
      some (loadInto imgSym (mkElfReader imgSym).1 0) :=
  (segmentAddr_bounds_spec imgSym (mkElfReader imgSym).1 0).1 (by decide)

/-- Claim C10: for a non-`ET_EXEC` image the entry point accumulates
across `LoadInto` calls — after `n` calls with base `vaddr` it equals
`e_entry + n * vaddr` (mod `2^32`) — and for a nonzero base two calls
give a different entry point than one, so `LoadInto` is not idempotent. -/
theorem entryPoint_accumulates (img : List Nat) (vaddr n : Nat)
    (hT : e_type img ≠ ET_EXEC) (hv : vaddr < 2 ^ 32) :
    GetEntryPoint (loadIntoN img (mkElfReader img).1 vaddr n) =
      (e_entry img + n * vaddr) % 2 ^ 32 ∧
    (vaddr ≠ 0 →
      GetEntryPoint (loadIntoN img (mkElfReader img).1 vaddr 2) ≠
        GetEntryPoint (loadIntoN img (mkElfReader img).1 vaddr 1)) := by
  refine ⟨loadIntoN_entry img vaddr hT n, fun hv0 heq => ?_⟩
  rw [GetEntryPoint, GetEntryPoint, loadIntoN_entry img vaddr hT 2,
    loadIntoN_entry img vaddr hT 1] at heq
  have hmod : (e_entry img + vaddr + vaddr) % 2 ^ 32 =
      (e_entry img + vaddr + 0) % 2 ^ 32 := by
    rw [show e_entry img + vaddr + vaddr = e_entry img + 2 * vaddr by ring,
      show e_entry img + vaddr + 0 = e_entry img + 1 * vaddr by ring]
    exact heq
  have hcancel := Nat.ModEq.add_left_cancel' (e_entry img + vaddr) hmod
  have hzero : vaddr % 2 ^ 32 = 0 := by simpa [Nat.ModEq] using hcancel
  rw [Nat.mod_eq_of_lt hv] at hzero
  exact hv0 hzero

/-- Claim C10 witness: the empty image has type 0 (not `ET_EXEC`) and raw
entry 0; two loads with base 5 leave the entry point at 10. -/
theorem entryPoint_accumulates_witness :
    GetEntryPoint (loadIntoN [] (mkElfReader []).1 5 2) = 10 := by
  rw [(entryPoint_accumulates [] 5 2 (by decide) (by decide)).1]
  decide

end Elf
